import Mathlib

/-!
Verification of the Power Control and Calibration Engine of
`logic/laser_power_controller.py` (class `LaserPowerController`).

Shallow embedding conventions:
* Python floats are modelled as real numbers; the float `**` operator on a
  positive base is modelled by `Real.rpow`.
* A numpy NaN entry of the calibration arrays is modelled as `none` in
  `Option ℝ`; a plain float is `some x`.  In `_aom_model` and
  `_aom_model_inverse` the source deliberately converts a zero argument to
  NaN, lets it propagate, and finally replaces NaN outputs by `0`; over the
  reals this collapses to an explicit zero branch, which is how the two
  functions are written below.
* Only the `process_control` actuation back-end is modelled (the scanner and
  motor branches differ only in which adapter object is read and written);
  the hardware control value and hardware limits live in the controller
  state.  The only implemented parametric model in the source is `aom`, so
  the non-interpolated branches always dispatch to the aom functions.
* Qt signal emissions and log messages carry no data flow; log warnings and
  errors that matter to the claims are reified in result records.
-/

namespace LaserPower

/-- Parameter dictionary of the aom transfer model (`model_params` keys
`max`, `sigma`, `slope`, `beta`).  The unused key `x0` mentioned by the
docstring never appears in the computation and is omitted. -/
structure AomParams where
  max : ℝ
  sigma : ℝ
  slope : ℝ
  beta : ℝ

/-- Embeds `_aom_model`.  Source: `X = control / sigma`; a zero `X` is made
NaN, the NaN propagates through `max / (1 + (1/X)**slope)**beta`, and NaN
results are replaced by `0`; hence the zero branch. -/
noncomputable def aom_model (p : AomParams) (control : ℝ) : ℝ :=
  let X := control / p.sigma
  if X = 0 then 0
  else p.max / (1 + (1 / X) ^ p.slope) ^ p.beta

/-- Embeds `_aom_model_inverse`.  Source: a zero `power` is made NaN, the
NaN propagates through `sigma * (1 / ((max/power)**beta - 1))**(1/slope)`,
and NaN results are replaced by `0`; hence the zero branch.  Note the
exponent on `max/power` is `beta`, exactly as in the source. -/
noncomputable def aom_model_inverse (p : AomParams) (power : ℝ) : ℝ :=
  if power = 0 then 0
  else
    let denominator := (p.max / power) ^ p.beta - 1
    let X := (1 / denominator) ^ (1 / p.slope)
    X * p.sigma

section Interp

variable {α : Type} [LinearOrderedField α] {β : Type}

/-- Insert one `(key, value)` pair into a list sorted by key; building block
of the sort that `scipy.interpolate.interp1d` applies to its `x` argument
at construction time (keys are pairwise distinct in every use below, so
stability is irrelevant). -/
def insertByFst (p : α × β) : List (α × β) → List (α × β)
  | [] => [p]
  | q :: rest => if p.1 ≤ q.1 then p :: q :: rest else q :: insertByFst p rest

/-- Sort a pair list by first component (insertion sort). -/
def sortByFst : List (α × β) → List (α × β) :=
  List.foldr insertByFst []

/-- Piecewise-linear evaluation of a table sorted by key, mirroring
`interp1d(..., fill_value="extrapolate")`: a query at or below the second
key (or past the end of the table) uses the current segment, so queries
outside the sampled domain are extrapolated from the nearest segment.  A
missing (`none`, that is NaN) endpoint of the selected segment poisons the
result, as NaN arithmetic does. -/
def interpEvalO : List (α × Option α) → α → Option α
  | [], _ => none
  | [(_, y0)], _ => y0
  | (x0, y0) :: (x1, y1) :: rest, v =>
    if v ≤ x1 ∨ rest = [] then
      match y0, y1 with
      | some a, some b => some (a + (v - x0) * (b - a) / (x1 - x0))
      | _, _ => none
    else interpEvalO ((x1, y1) :: rest) v

/-- Turn a list of optional values into an optional list: `some` of all the
values when none is missing. -/
def seqOption : List (Option α) → Option (List α)
  | [] => some []
  | none :: _ => none
  | some a :: rest => (seqOption rest).map (a :: ·)

/-- Evaluation of the forward interpolant `interp1d(calibration_x,
calibration_y)` built by `_compute_interpolated`: sort the samples by
control value, then interpolate linearly with extrapolation. -/
def evalForward (xs : List α) (ys : List (Option α)) (v : α) : Option α :=
  interpEvalO (sortByFst (xs.zip ys)) v

/-- Evaluation of the inverse interpolant `interp1d(calibration_y,
calibration_x)`.  When the `calibration_y` array contains missing (NaN)
entries the NaN keys poison the key comparisons of the lookup; that case is
conservatively modelled as a missing result (no claim exercises it).  For a
complete curve the samples are sorted by power value and interpolated
linearly with extrapolation, exactly as the forward direction. -/
def evalInverse (ys : List (Option α)) (xs : List α) (v : α) : Option α :=
  match seqOption ys with
  | some ys0 =>
      interpEvalO ((sortByFst (ys0.zip xs)).map (fun p => (p.1, some p.2))) v
  | none => none

/-- Embeds `np.linspace(a, b, n)`: `n` evenly spaced samples from `a` to
`b` inclusive. -/
def linspace (a b : α) (n : ℕ) : List α :=
  if n = 0 then []
  else if n = 1 then [a]
  else (List.range n).map (fun i : ℕ => a + (i : α) * (b - a) / ((n - 1 : ℕ) : α))

/-- Binary maximum that propagates a missing (NaN) operand. -/
def omax (x y : Option α) : Option α :=
  match x, y with
  | some a, some b => some (max a b)
  | _, _ => none

/-- Binary minimum that propagates a missing (NaN) operand. -/
def omin (x y : Option α) : Option α :=
  match x, y with
  | some a, some b => some (min a b)
  | _, _ => none

/-- Embeds `np.max` over a possibly NaN-containing array: any missing entry
makes the maximum missing (NaN).  The empty case never arises in the source
because the caller guards it. -/
def npMax : List (Option α) → Option α
  | [] => none
  | [a] => a
  | a :: b :: rest => omax a (npMax (b :: rest))

/-- Embeds `np.min` over a possibly NaN-containing array, as `npMax`. -/
def npMin : List (Option α) → Option α
  | [] => none
  | [a] => a
  | a :: b :: rest => omin a (npMin (b :: rest))

/-- Python comparison `a < b` where `b` may be NaN: any comparison with NaN
is false. -/
def ltPy (a : α) (b : Option α) : Bool :=
  match b with
  | some x => a < x
  | none => false

/-- Python comparison `a > b` where `b` may be NaN: any comparison with NaN
is false. -/
def gtPy (a : α) (b : Option α) : Bool :=
  match b with
  | some x => x < a
  | none => false

/-- Index of the first missing entry, embedding `_get_next_index` (the
index of the first NaN of `calibration_y`, or `None` when no NaN is
left). -/
def nextIndex : List (Option α) → Option ℕ
  | [] => none
  | none :: _ => some 0
  | some _ :: rest => (nextIndex rest).map (· + 1)

end Interp

/-- Embeds `np.geomspace(a, b, n)`: `n` geometrically spaced samples from
`a` to `b` inclusive, `a * (b/a)^(i/(n-1))`. -/
noncomputable def geomspace (a b : ℝ) (n : ℕ) : List ℝ :=
  if n = 0 then []
  else if n = 1 then [a]
  else (List.range n).map (fun i : ℕ => a * (b / a) ^ ((i : ℝ) / ((n - 1 : ℕ) : ℝ)))

/-- Embeds `_get_control_limits`: hardware limits, each side tightened by
the corresponding configured override when present.  The source returns the
pair as computed; it contains no low-versus-high consistency check. -/
def getControlLimits (hw : ℝ × ℝ) (cfg : Option ℝ × Option ℝ) : ℝ × ℝ :=
  (match cfg.1 with
    | some c => max c hw.1
    | none => hw.1,
   match cfg.2 with
    | some c => min c hw.2
    | none => hw.2)

/-- The two spacing modes accepted by `set_type` (`config_type`). -/
inductive SpacingType
  | Linear
  | Logarithmic
deriving DecidableEq

/-- The qudi module states exercised by this logic module. -/
inductive ModuleState
  | idle
  | running
deriving DecidableEq

/-- Errors and warnings logged by the controller paths under study. -/
inductive LogicError
  | alreadyRunning
  | uncalibrated
  | controlOutOfBounds
  | emptyCalibration
  | interpFailure
deriving DecidableEq

/-- Controller state: the mutable attributes of `LaserPowerController`
touched by the claims, plus the state of the connected hardware.  The two
interpolants are closures in the source; each is modelled by the pair of
arrays it captured when `_compute_interpolated` built it. -/
structure State where
  useInterpolated : Bool
  interpolatedData : Option (List ℝ × List (Option ℝ))
  interpolatedInverseData : Option (List (Option ℝ) × List ℝ)
  modelParams : AomParams
  calibrationX : List ℝ
  calibrationY : List (Option ℝ)
  configControlLimits : Option ℝ × Option ℝ
  moduleState : ModuleState
  resolution : ℕ
  configType : SpacingType
  controlValue : ℝ
  hwLimits : ℝ × ℝ
  switchState : Option Bool

/-- Effective control limits of a controller state (hardware limits of the
connected control source intersected with the configured override). -/
def controlLimits (s : State) : ℝ × ℝ :=
  getControlLimits s.hwLimits s.configControlLimits

/-- Embeds `_set_control`: reject (error log, no write) when the value is
not inside the control limits, otherwise hand the value to the control
source.  A NaN value (modelled `none`) fails the chained comparison
`limit_low <= value <= limit_high` exactly like an out-of-range one. -/
noncomputable def setControlCheck (s : State) (value : Option ℝ) : Option ℝ :=
  match value with
  | some v =>
      if (controlLimits s).1 ≤ v ∧ v ≤ (controlLimits s).2 then some v else none
  | none => none

/-- Embeds `get_switch_state`: the switch state when a switch is connected,
`None` otherwise. -/
def getSwitchState (s : State) : Option Bool :=
  s.switchState

/-- Embeds `get_power_setpoint`: `0` when the interpolated mapping is
selected but not yet computed, the forward interpolant at the current
control value when it is, and the parametric model at the current control
value otherwise. -/
noncomputable def getPowerSetpoint (s : State) : Option ℝ :=
  if s.useInterpolated then
    match s.interpolatedData with
    | none => some 0
    | some d => evalForward d.1 d.2 s.controlValue
  else some (aom_model s.modelParams s.controlValue)

/-- Embeds `get_power`: `0` when a connected switch reports off, the power
setpoint in every other case (switch on, or no switch connected). -/
noncomputable def getPower (s : State) : Option ℝ :=
  if getSwitchState s = some false then some 0 else getPowerSetpoint s

/-- Embeds the `power_max` property: maximum of the calibration powers in
interpolated mode (`0` for an empty calibration), maximum of the model at
the two control limits otherwise. -/
noncomputable def powerMax (s : State) : Option ℝ :=
  if s.useInterpolated then
    if s.calibrationY.length = 0 then some 0 else npMax s.calibrationY
  else
    some (max (aom_model s.modelParams (controlLimits s).1)
              (aom_model s.modelParams (controlLimits s).2))

/-- Embeds the `power_min` property, dually to `powerMax`. -/
noncomputable def powerMin (s : State) : Option ℝ :=
  if s.useInterpolated then
    if s.calibrationY.length = 0 then some 0 else npMin s.calibrationY
  else
    some (min (aom_model s.modelParams (controlLimits s).1)
              (aom_model s.modelParams (controlLimits s).2))

/-- Observable outcome of one `set_power` call: which warnings were logged,
which error (if any) was logged, and the value written to the control
source (if the write was reached and accepted). -/
structure SetPowerOut where
  warnLow : Bool
  warnHigh : Bool
  error : Option LogicError
  write : Option ℝ

/-- Embeds `set_power`.  The two bound comparisons only log warnings and do
not stop execution (there is no early return after them in the source).
When the interpolated mapping is selected but no inverse interpolant
exists, the call warns and returns before computing any control value.
Otherwise the inverse mapping produces a control value which is handed to
`_set_control`; only `_set_control` can still refuse the hardware write,
and it does so based on the control limits, not the power bounds. -/
noncomputable def setPower (s : State) (value : ℝ) : State × SetPowerOut :=
  let warnLow := ltPy value (powerMin s)
  let warnHigh := gtPy value (powerMax s)
  if s.useInterpolated ∧ s.interpolatedInverseData = none then
    (s, ⟨warnLow, warnHigh, some .uncalibrated, none⟩)
  else
    let control : Option ℝ :=
      if s.useInterpolated then
        match s.interpolatedInverseData with
        | some d => evalInverse d.1 d.2 value
        | none => none
      else some (aom_model_inverse s.modelParams value)
    match setControlCheck s control with
    | some v => ({ s with controlValue := v }, ⟨warnLow, warnHigh, none, some v⟩)
    | none => (s, ⟨warnLow, warnHigh, some .controlOutOfBounds, none⟩)

/-- Embeds `_compute_interpolated`: an empty calibration only logs a
warning and leaves the interpolants untouched; `interp1d` raises (caught
and logged as an error) only when an array has fewer than two entries or
the two arrays have different lengths — it performs no finiteness check, so
arrays containing NaN entries build successfully.  On success both
interpolants capture the current calibration arrays. -/
def computeInterpolated (s : State) : State × Option LogicError :=
  if s.calibrationY.length = 0 then (s, some .emptyCalibration)
  else if s.calibrationX.length < 2 ∨ s.calibrationY.length < 2 ∨
          s.calibrationX.length ≠ s.calibrationY.length then
    (s, some .interpFailure)
  else
    ({ s with
        interpolatedData := some (s.calibrationX, s.calibrationY),
        interpolatedInverseData := some (s.calibrationY, s.calibrationX) }, none)

/-- Embeds `set_interpolated`: recompute the interpolants, then set the
`use_interpolated` flag (the flag is set even when the recomputation only
logged a problem). -/
def setInterpolated (s : State) (value : Bool) : State × Option LogicError :=
  let r := computeInterpolated s
  ({ r.1 with useInterpolated := value }, r.2)

/-- Embeds `fit` in interpolated mode: delegate to `set_interpolated True`.
The parametric branch hands the calibration arrays to the external lmfit
minimizer and is outside this model; no claim exercises it. -/
def fit (s : State) : State × Option LogicError :=
  if s.useInterpolated then setInterpolated s true else (s, none)

/-- Embeds `start_configure_measurement`: reject when the module is not
idle; otherwise switch to running, generate the control grid over the
effective limits (linear, or geometric with a zero lower limit replaced by
`maxi * 1e-6`), and reset `calibration_y` to an all-NaN array of the same
length. -/
noncomputable def startConfigureMeasurement (s : State) : State × Option LogicError :=
  if s.moduleState ≠ ModuleState.idle then (s, some .alreadyRunning)
  else
    let mini := (controlLimits s).1
    let maxi := (controlLimits s).2
    let xs : List ℝ :=
      match s.configType with
      | .Linear => linspace mini maxi s.resolution
      | .Logarithmic =>
          geomspace (if mini = 0 then maxi * (1 / 1000000) else mini) maxi s.resolution
    ({ s with
        moduleState := .running,
        calibrationX := xs,
        calibrationY := List.replicate xs.length none }, none)

/-- One full calibration loop driven by `sigDoNextPoint` and the settle
timer, as a trace: while a missing entry remains and a meter reading is
available, `_next_point_apply_control` applies the control value at the
first missing index (the bounds check of `_set_control` passes for every
grid value inside the effective limits) and `_next_point_measure_power`
records exactly one meter reading at that same index before the loop
re-enters.  Each trace element is the pair (index visited, control value
applied there); the function also returns the final calibration array. -/
def sweepRun {α : Type} [LinearOrderedField α] (xs : List α) :
    List α → List (Option α) → List (ℕ × α) × List (Option α)
  | [], ys => ([], ys)
  | r :: rs, ys =>
    match nextIndex ys with
    | none => ([], ys)
    | some i =>
        let rec2 := sweepRun xs rs (ys.set i (some r))
        ((i, xs.getD i 0) :: rec2.1, rec2.2)

/-- A freshly activated controller connected to a process control channel
with hardware limits `(0, 10)`, no configured override, no switch, and no
calibration yet; the interpolated mapping is selected (the default when the
configured model is `none`). -/
def baseState : State where
  useInterpolated := true
  interpolatedData := none
  interpolatedInverseData := none
  modelParams := ⟨1, 1, 1, 1⟩
  calibrationX := []
  calibrationY := []
  configControlLimits := (none, none)
  moduleState := .idle
  resolution := 50
  configType := .Linear
  controlValue := 0
  hwLimits := (0, 10)
  switchState := none

/-- The controller after interpolating the calibration curve with control
values `[0, 5, 10]` and measured powers `[0, 10, 2]`: the control axis is
strictly increasing but the measured power axis is not monotonic (the power
peaks in the middle of the control range). -/
def humpState : State :=
  (computeInterpolated
    { baseState with
        calibrationX := [0, 5, 10]
        calibrationY := [some 0, some 10, some 2] }).1

/-- The controller after interpolating the calibration curve with control
values `[1, 2]` and measured powers `[3, 5]`, a curve that does not pass
through the origin; the current control value is `0`. -/
def offsetState : State :=
  (computeInterpolated
    { baseState with
        calibrationX := [1, 2]
        calibrationY := [some 3, some 5] }).1

/-- The controller after a five point sweep was aborted with only the first
two points measured: three trailing entries of `calibration_y` are still
the NaN sentinel. -/
noncomputable def abortedState : State :=
  { baseState with
      calibrationX := [0, 5 / 2, 5, 15 / 2, 10]
      calibrationY := [some 1, some 2, none, none, none] }

/-- A controller whose module state machine reports a sweep in progress. -/
def runningState : State :=
  { baseState with moduleState := .running }

/-- A fresh controller configured for a five point linear sweep. -/
def sweepState : State :=
  { baseState with resolution := 5 }

/-- The calibrated two point controller with a connected switch reporting
off. -/
def offSwitchState : State :=
  { offsetState with switchState := some false }

/-- The calibrated two point controller with a connected switch reporting
on. -/
def onSwitchState : State :=
  { offsetState with switchState := some true }

/-- An empty list of measured values holds no missing entry. -/
theorem nextIndex_map_some {γ : Type} (l : List γ) : nextIndex (l.map some) = none := by
  induction l with
  | nil => rfl
  | cons a t ih => simp [nextIndex, ih]

/-- The first missing entry after a block of measured values sits right
after the block. -/
theorem nextIndex_fill {γ : Type} (l : List γ) (m : ℕ) :
    nextIndex (l.map some ++ none :: List.replicate m none) = some l.length := by
  induction l with
  | nil => rfl
  | cons a t ih => simp [nextIndex, ih]

/-- Setting the element right after a prefix replaces the head of the
suffix. -/
theorem set_len_append {γ : Type} (L : List γ) (a b : γ) (t : List γ) :
    (L ++ a :: t).set L.length b = L ++ b :: t := by
  induction L with
  | nil => rfl
  | cons c L ih => simp [List.set, ih]

/-- The calibration loop fills the missing tail of the sample array left to
right: starting from a prefix of `done` measured points followed by `m`
missing ones, the loop visits indices `done.length, done.length + 1, …` in
order, applies the control value stored at each index, records exactly one
meter reading there, and ends with the readings appended after the
prefix. -/
theorem sweepRun_trace {α : Type} [LinearOrderedField α] (xs : List α) :
    ∀ (m : ℕ) (done rs : List α), m ≤ rs.length →
      sweepRun xs rs (done.map some ++ List.replicate m none)
        = ((List.range m).map (fun j => (done.length + j, xs.getD (done.length + j) 0)),
           (done ++ rs.take m).map some) := by
  intro m
  induction m with
  | zero =>
    intro done rs _
    cases rs with
    | nil => simp [sweepRun]
    | cons r rs => simp [sweepRun, nextIndex_map_some]
  | succ m ih =>
    intro done rs hlen
    cases rs with
    | nil => simp at hlen
    | cons r rs =>
      have hnext : nextIndex (done.map some ++ List.replicate (m + 1) none)
          = some done.length := by
        simpa [List.replicate] using nextIndex_fill done m
      have hset : (done.map some ++ List.replicate (m + 1) none).set done.length (some r)
          = (done ++ [r]).map some ++ List.replicate m none := by
        have h := set_len_append (done.map some) (none : Option α) (some r)
          (List.replicate m none)
        simp only [List.length_map] at h
        simp only [List.replicate_succ, List.map_append, List.map_cons, List.map_nil,
          List.append_assoc, List.singleton_append]
        exact h
      have hlen2 : m ≤ rs.length := by simpa using hlen
      have hrec := ih (done ++ [r]) rs hlen2
      have hidx : ∀ j : ℕ, (done ++ [r]).length + j = done.length + (j + 1) := by
        intro j
        simp
        omega
      rw [sweepRun, hnext]
      simp only [hset, hrec, List.range_succ_eq_map, List.map_cons, List.map_map,
        Prod.mk.injEq]
      constructor
      · rw [Nat.add_zero]
        congr 1
        apply List.map_congr_left
        intro j _
        simp only [Function.comp_apply, hidx j, Nat.succ_eq_add_one]
      · simp [List.take_cons]

/-- The linear grid has exactly the requested number of samples. -/
theorem linspace_length {α : Type} [LinearOrderedField α] (a b : α) (n : ℕ) :
    (linspace a b n).length = n := by
  unfold linspace
  split
  · simp [*]
  · split
    · simp [*]
    · rw [List.length_map, List.length_range]

/-- Closed form of each sample of the linear grid: the samples are evenly
spaced with step `(b - a) / (n - 1)`. -/
theorem linspace_getD {α : Type} [LinearOrderedField α] (a b : α) (n i : ℕ)
    (h2 : 2 ≤ n) (hi : i < n) :
    (linspace a b n).getD i 0 = a + (i : α) * (b - a) / ((n - 1 : ℕ) : α) := by
  have hlen : i < ((List.range n).map
      (fun j : ℕ => a + (j : α) * (b - a) / ((n - 1 : ℕ) : α))).length := by
    rw [List.length_map, List.length_range]
    exact hi
  unfold linspace
  rw [if_neg (by omega), if_neg (by omega), List.getD_eq_getElem _ _ hlen,
    List.getElem_map, List.getElem_range]

/-- The linear grid starts at its lower endpoint. -/
theorem linspace_getD_zero {α : Type} [LinearOrderedField α] (a b : α) (n : ℕ)
    (h2 : 2 ≤ n) : (linspace a b n).getD 0 0 = a := by
  rw [linspace_getD a b n 0 h2 (by omega)]
  simp

/-- The linear grid ends at its upper endpoint. -/
theorem linspace_getD_last {α : Type} [LinearOrderedField α] (a b : α) (n : ℕ)
    (h2 : 2 ≤ n) : (linspace a b n).getD (n - 1) 0 = b := by
  rw [linspace_getD a b n (n - 1) h2 (by omega)]
  have h2c : (2 : α) ≤ (n : α) := by exact_mod_cast h2
  have hc : ((n : α) - 1) ≠ 0 := by
    intro h0
    nlinarith
  rw [Nat.cast_sub (by omega : 1 ≤ n)]
  push_cast
  field_simp

/-- Every sample of the linear grid lies inside the endpoints, so the
bounds check of the control write passes during a sweep. -/
theorem linspace_mem {α : Type} [LinearOrderedField α] (a b : α) (n : ℕ)
    (hab : a ≤ b) (x : α) (hx : x ∈ linspace a b n) : a ≤ x ∧ x ≤ b := by
  unfold linspace at hx
  split at hx
  · simp at hx
  · split at hx
    · simp at hx
      constructor <;> simp [hx, hab]
    · simp only [List.mem_map, List.mem_range] at hx
      obtain ⟨i, hi, rfl⟩ := hx
      rename_i hn0 hn1
      have hpos : (0 : α) < ((n - 1 : ℕ) : α) := by
        have h : (0 : ℕ) < n - 1 := by omega
        exact_mod_cast h
      have hil : (i : α) ≤ ((n - 1 : ℕ) : α) := by
        have h : i ≤ n - 1 := by omega
        exact_mod_cast h
      have hi0 : (0 : α) ≤ (i : α) := Nat.cast_nonneg i
      have hba : (0 : α) ≤ b - a := by linarith
      constructor
      · have h : (0 : α) ≤ (i : α) * (b - a) / ((n - 1 : ℕ) : α) := by positivity
        linarith
      · have h1 : (i : α) * (b - a) / ((n - 1 : ℕ) : α) ≤ b - a := by
          rw [div_le_iff₀ hpos]
          nlinarith
        linarith

/-- The geometric grid has exactly the requested number of samples. -/
theorem geomspace_length (a b : ℝ) (n : ℕ) : (geomspace a b n).length = n := by
  unfold geomspace
  split
  · simp [*]
  · split
    · simp [*]
    · rw [List.length_map, List.length_range]

/-- The geometric grid starts at its lower endpoint. -/
theorem geomspace_getD_zero (a b : ℝ) (n : ℕ) (h2 : 2 ≤ n) :
    (geomspace a b n).getD 0 0 = a := by
  have hlen : (0 : ℕ) < ((List.range n).map
      (fun i : ℕ => a * (b / a) ^ ((i : ℝ) / ((n - 1 : ℕ) : ℝ)))).length := by
    rw [List.length_map, List.length_range]
    omega
  unfold geomspace
  rw [if_neg (by omega), if_neg (by omega), List.getD_eq_getElem _ _ hlen,
    List.getElem_map, List.getElem_range]
  norm_num

/-- The geometric grid ends at its upper endpoint. -/
theorem geomspace_getD_last (a b : ℝ) (n : ℕ) (h2 : 2 ≤ n) (ha : a ≠ 0) :
    (geomspace a b n).getD (n - 1) 0 = b := by
  have hlen : n - 1 < ((List.range n).map
      (fun i : ℕ => a * (b / a) ^ ((i : ℝ) / ((n - 1 : ℕ) : ℝ)))).length := by
    rw [List.length_map, List.length_range]
    omega
  unfold geomspace
  rw [if_neg (by omega), if_neg (by omega), List.getD_eq_getElem _ _ hlen,
    List.getElem_map, List.getElem_range]
  have hc : ((n - 1 : ℕ) : ℝ) ≠ 0 := Nat.cast_ne_zero.mpr (by omega)
  rw [div_self hc, Real.rpow_one, mul_comm, div_mul_cancel₀ _ ha]

/-- A `set_power` call never touches the switch state, whatever path it
takes. -/
theorem setPower_keeps_switch (s : State) (v : ℝ) :
    (setPower s v).1.switchState = s.switchState := by
  rw [setPower]
  dsimp only
  split
  · rfl
  · split <;> rfl

/-- Claim C1 (code bug).  The parameter set `max = 4`, `sigma = 1`,
`slope = 1`, `beta = 2` makes the direct aom model strictly monotonic on
the control range `[1/2, 2]`, and the model maps the control value `1` to
the power `1`; yet `_aom_model_inverse` maps that power back to `1/15`, not
`1`, so the parametric round trip fails by a relative error of `14/15`,
far beyond any small tolerance.  The cause is the exponent of the inverse:
the source computes `(max/power) ** beta` where inverting the direct
formula requires `(max/power) ** (1/beta)`, so the two functions are
mutually inverse only when `beta = 1`. -/
theorem aom_inverse_roundtrip_code_bug :
    StrictMonoOn (aom_model ⟨4, 1, 1, 2⟩) (Set.Icc (1 / 2 : ℝ) 2)
    ∧ aom_model ⟨4, 1, 1, 2⟩ 1 = 1
    ∧ aom_model_inverse ⟨4, 1, 1, 2⟩ (aom_model ⟨4, 1, 1, 2⟩ 1) = 1 / 15
    ∧ |aom_model_inverse ⟨4, 1, 1, 2⟩ (aom_model ⟨4, 1, 1, 2⟩ 1) - 1| = 14 / 15 := by
  have heval : ∀ c : ℝ, 0 < c →
      aom_model ⟨4, 1, 1, 2⟩ c = 4 / (1 + 1 / c) ^ (2 : ℕ) := by
    intro c hc
    unfold aom_model
    rw [if_neg (by positivity)]
    simp only [div_one]
    rw [Real.rpow_one, show ((2 : ℝ)) = ((2 : ℕ) : ℝ) by norm_num, Real.rpow_natCast]
  refine ⟨?_, ?_, ?_, ?_⟩
  · intro a ha b hb hab
    have ha0 : (0 : ℝ) < a := lt_of_lt_of_le (by norm_num) ha.1
    have hb0 : (0 : ℝ) < b := lt_of_lt_of_le (by norm_num) hb.1
    rw [heval a ha0, heval b hb0]
    have h1 : 1 / b < 1 / a := one_div_lt_one_div_of_lt ha0 hab
    apply div_lt_div_of_pos_left (by norm_num)
    · positivity
    · have h2 : 1 + 1 / b < 1 + 1 / a := by linarith
      have h3 : (0 : ℝ) < 1 + 1 / b := by positivity
      nlinarith
  · unfold aom_model
    norm_num
  · unfold aom_model aom_model_inverse
    norm_num
  · unfold aom_model aom_model_inverse
    norm_num

/-- Claim C2 (code bug).  In the non monotonic calibrated state
`humpState` the power bounds are `[0, 10]`, and the requested power `12`
is strictly above the upper bound; yet `set_power humpState 12` logs no
error and writes the extrapolated control value `15/4` to the control
source, because the source only logs warnings for out of range powers (its
messages say the power can not be set, but the code falls through) and the
later `_set_control` check is against the control limits, which `15/4`
satisfies. -/
theorem set_power_out_of_range_write_code_bug :
    powerMax humpState = some 10
    ∧ powerMin humpState = some 0
    ∧ (10 : ℝ) < 12
    ∧ (setPower humpState 12).2.write = some (15 / 4)
    ∧ (setPower humpState 12).2.error = none := by
  refine ⟨?_, ?_, by norm_num, ?_⟩
  · norm_num [powerMax, humpState, computeInterpolated, baseState, npMax, omax]
  · norm_num [powerMin, humpState, computeInterpolated, baseState, npMin, omin]
  · rw [setPower, if_neg (by simp [humpState, computeInterpolated, baseState])]
    norm_num [humpState, computeInterpolated, baseState, evalInverse,
      seqOption, sortByFst, insertByFst, interpEvalO, List.zip, setControlCheck,
      controlLimits, getControlLimits]

/-- Claim C3, counterexample.  For the interpolated backend the direct
mapping at control value `0` is not `0`: with the calibration curve
`([1, 2], [3, 5])` the interpolant extrapolates to `1` at control `0`, so
the zero boundary condition of the claim fails for that backend. -/
theorem zero_boundary_interpolated_counterexample :
    offsetState.useInterpolated = true
    ∧ offsetState.controlValue = 0
    ∧ getPowerSetpoint offsetState = some 1
    ∧ (some (1 : ℝ) : Option ℝ) ≠ some 0 := by
  refine ⟨rfl, rfl, ?_, by simp⟩
  norm_num [getPowerSetpoint, offsetState, computeInterpolated, baseState,
    evalForward, sortByFst, insertByFst, interpEvalO, List.zip]

/-- Claim C3 as amended.  For the parametric backend only, the zero
boundary holds exactly and by explicit special casing: for every parameter
set, `_aom_model` maps control `0` to power `0` and `_aom_model_inverse`
maps power `0` to control `0`. -/
theorem zero_boundary_parametric (p : AomParams) :
    aom_model p 0 = 0 ∧ aom_model_inverse p 0 = 0 := by
  constructor
  · unfold aom_model
    norm_num
  · unfold aom_model_inverse
    norm_num

/-- Claim C4, counterexample.  The curve of `abortedState` has exactly two
measured samples and three missing (NaN) entries, yet `fit` (which in
interpolated mode recomputes the interpolants) reports no error and
installs both interpolants over the incomplete arrays: a partially filled
curve is silently treated as complete. -/
theorem incomplete_curve_fit_counterexample :
    none ∈ abortedState.calibrationY
    ∧ (fit abortedState).2 = none
    ∧ (fit abortedState).1.interpolatedData
        = some ([0, 5 / 2, 5, 15 / 2, 10], [some 1, some 2, none, none, none])
    ∧ (fit abortedState).1.interpolatedInverseData
        = some ([some 1, some 2, none, none, none], [0, 5 / 2, 5, 15 / 2, 10]) := by
  refine ⟨by simp [abortedState, baseState], ?_, ?_, ?_⟩ <;> rfl

/-- Claim C4 as amended.  `_compute_interpolated` only rejects an empty
calibration (warning) or arrays that `interp1d` refuses to zip (fewer than
two entries, or mismatched lengths); any other curve — in particular one
containing missing entries — is accepted without error and both
interpolants are installed. -/
theorem compute_interpolated_accepts_missing (s : State)
    (h2 : 2 ≤ s.calibrationY.length)
    (hlen : s.calibrationX.length = s.calibrationY.length) :
    (computeInterpolated s).2 = none
    ∧ (computeInterpolated s).1.interpolatedData
        = some (s.calibrationX, s.calibrationY)
    ∧ (computeInterpolated s).1.interpolatedInverseData
        = some (s.calibrationY, s.calibrationX) := by
  rw [computeInterpolated, if_neg (by omega), if_neg (by push_neg; omega)]
  exact ⟨rfl, rfl, rfl⟩

/-- Witness for the amended claim C4, at the aborted five point curve. -/
theorem compute_interpolated_accepts_missing_witness :
    (computeInterpolated abortedState).2 = none
    ∧ (computeInterpolated abortedState).1.interpolatedData
        = some (abortedState.calibrationX, abortedState.calibrationY) := by
  have h := compute_interpolated_accepts_missing abortedState
    (by simp [abortedState, baseState]) (by simp [abortedState, baseState])
  exact ⟨h.1, h.2.1⟩

/-- Claim C5, counterexample.  With hardware bounds `(0, 10)` and a low
override of `20`, `_get_control_limits` returns the crossed range
`(20, 10)` with `low > high` as is — no error is raised and nothing is
clamped. -/
theorem crossed_bounds_returned_counterexample :
    getControlLimits ((0 : ℝ), 10) (some 20, none) = (20, 10) ∧ (10 : ℝ) < 20 := by
  constructor
  · norm_num [getControlLimits]
  · norm_num

/-- Claim C5 as amended.  Each side of the effective bounds is the tighter
of the hardware value and the override when one is present (so an override
can only shrink the range, never widen it), including the two concrete
spec examples; but when the resulting low exceeds the resulting high the
crossed pair is returned as is, without error, as the counterexample
shows. -/
theorem effective_bounds_tighter_per_side :
    (∀ h1 h2 : ℝ, ∀ o1 o2 : Option ℝ,
        h1 ≤ (getControlLimits (h1, h2) (o1, o2)).1
        ∧ (getControlLimits (h1, h2) (o1, o2)).2 ≤ h2)
    ∧ (∀ h1 h2 c : ℝ, ∀ o2 : Option ℝ,
        (getControlLimits (h1, h2) (some c, o2)).1 = max c h1)
    ∧ (∀ h1 h2 c : ℝ, ∀ o1 : Option ℝ,
        (getControlLimits (h1, h2) (o1, some c)).2 = min c h2)
    ∧ (∀ h1 h2 : ℝ, ∀ o2 : Option ℝ,
        (getControlLimits (h1, h2) (none, o2)).1 = h1)
    ∧ (∀ h1 h2 : ℝ, ∀ o1 : Option ℝ,
        (getControlLimits (h1, h2) (o1, none)).2 = h2)
    ∧ getControlLimits ((0 : ℝ), 10) (some 2, none) = (2, 10)
    ∧ getControlLimits ((0 : ℝ), 10) (none, some 20) = (0, 10) := by
  refine ⟨?_, fun h1 h2 c o2 => rfl, fun h1 h2 c o1 => rfl,
    fun h1 h2 o2 => rfl, fun h1 h2 o1 => rfl, ?_, ?_⟩
  · intro h1 h2 o1 o2
    constructor
    · cases o1 <;> simp [getControlLimits]
    · cases o2 <;> simp [getControlLimits]
  · norm_num [getControlLimits]
  · norm_num [getControlLimits]

/-- Claim C6.  From an idle controller with effective bounds `(lo, hi)`
and resolution at least two, starting a calibration produces: for linear
spacing, exactly `resolution` evenly spaced control values from `lo` to
`hi` inclusive (each inside the bounds, so every control write of the
sweep passes the bounds check); for logarithmic spacing with `lo = 0`, no
error and a geometric grid over `[hi * 1e-6, hi]` inclusive instead; and
in either case the sweep loop visits the grid indices `0, 1, …` in
increasing order, applying the grid value and recording exactly one
measurement at each index before advancing. -/
theorem calibration_sweep_generation_order (s : State) (lo hi : ℝ)
    (hidle : s.moduleState = ModuleState.idle)
    (h2 : 2 ≤ s.resolution)
    (hlim : controlLimits s = (lo, hi)) :
    (s.configType = SpacingType.Linear →
      (startConfigureMeasurement s).1.calibrationX = linspace lo hi s.resolution
      ∧ (startConfigureMeasurement s).2 = none
      ∧ (linspace lo hi s.resolution).length = s.resolution
      ∧ (∀ i, i < s.resolution → (linspace lo hi s.resolution).getD i 0
          = lo + (i : ℝ) * (hi - lo) / ((s.resolution - 1 : ℕ) : ℝ))
      ∧ (linspace lo hi s.resolution).getD 0 0 = lo
      ∧ (linspace lo hi s.resolution).getD (s.resolution - 1) 0 = hi
      ∧ (lo ≤ hi → ∀ x ∈ linspace lo hi s.resolution, lo ≤ x ∧ x ≤ hi))
    ∧ (s.configType = SpacingType.Logarithmic → lo = 0 →
        (startConfigureMeasurement s).2 = none
        ∧ (startConfigureMeasurement s).1.calibrationX
            = geomspace (hi * (1 / 1000000)) hi s.resolution
        ∧ (0 < hi →
            (geomspace (hi * (1 / 1000000)) hi s.resolution).getD 0 0
              = hi * (1 / 1000000)
            ∧ (geomspace (hi * (1 / 1000000)) hi s.resolution).getD
                (s.resolution - 1) 0 = hi))
    ∧ (∀ rs : List ℝ, rs.length = s.resolution →
        sweepRun (startConfigureMeasurement s).1.calibrationX rs
            (startConfigureMeasurement s).1.calibrationY
          = ((List.range s.resolution).map (fun i =>
              (i, (startConfigureMeasurement s).1.calibrationX.getD i 0)),
             rs.map some)) := by
  refine ⟨?_, ?_, ?_⟩
  · intro hlin
    have hx : (startConfigureMeasurement s).1.calibrationX
        = linspace lo hi s.resolution := by
      rw [startConfigureMeasurement, if_neg (by simp [hidle])]
      simp [hlin, hlim]
    have he : (startConfigureMeasurement s).2 = none := by
      rw [startConfigureMeasurement, if_neg (by simp [hidle])]
    exact ⟨hx, he, linspace_length _ _ _,
      fun i hi2 => linspace_getD _ _ _ i h2 hi2,
      linspace_getD_zero _ _ _ h2, linspace_getD_last _ _ _ h2,
      fun hab x hx2 => linspace_mem _ _ _ hab x hx2⟩
  · intro hlog hlo
    have hg : (startConfigureMeasurement s).1.calibrationX
        = geomspace (hi * (1 / 1000000)) hi s.resolution := by
      rw [startConfigureMeasurement, if_neg (by simp [hidle])]
      simp [hlog, hlim, hlo]
    have he : (startConfigureMeasurement s).2 = none := by
      rw [startConfigureMeasurement, if_neg (by simp [hidle])]
    refine ⟨he, hg, ?_⟩
    intro hhi
    have hne : hi * (1 / 1000000) ≠ 0 := by positivity
    exact ⟨geomspace_getD_zero _ _ _ h2, geomspace_getD_last _ _ _ h2 hne⟩
  · intro rs hrs
    have hY : (startConfigureMeasurement s).1.calibrationY
        = List.replicate s.resolution none := by
      rw [startConfigureMeasurement, if_neg (by simp [hidle])]
      rcases hct : s.configType
      · simp [hct, hlim, linspace_length]
      · simp [hct, hlim, geomspace_length]
    rw [hY]
    have htr := sweepRun_trace ((startConfigureMeasurement s).1.calibrationX)
      s.resolution [] rs (by omega)
    simpa [← hrs] using htr

/-- Witness for claim C6: the five point linear sweep over bounds
`(0, 10)` generates the grid `[0, 2.5, 5, 7.5, 10]` and a full run visits
the five indices in order, recording one reading each. -/
theorem calibration_sweep_generation_order_witness :
    (startConfigureMeasurement sweepState).1.calibrationX = [0, 5 / 2, 5, 15 / 2, 10]
    ∧ sweepRun (startConfigureMeasurement sweepState).1.calibrationX
        [4, 8, 15, 16, 23] (startConfigureMeasurement sweepState).1.calibrationY
      = ([(0, 0), (1, 5 / 2), (2, 5), (3, 15 / 2), (4, 10)],
         [some 4, some 8, some 15, some 16, some 23]) := by
  have h := calibration_sweep_generation_order sweepState 0 10 rfl
    (by norm_num [sweepState, baseState]) rfl
  have hx : (startConfigureMeasurement sweepState).1.calibrationX
      = linspace 0 10 sweepState.resolution := (h.1 rfl).1
  have hres : sweepState.resolution = 5 := rfl
  have hlin : linspace (0 : ℝ) 10 5 = [0, 5 / 2, 5, 15 / 2, 10] := by
    norm_num [linspace, List.range_succ]
  have hx5 : (startConfigureMeasurement sweepState).1.calibrationX
      = [0, 5 / 2, 5, 15 / 2, 10] := by
    rw [hx, hres, hlin]
  refine ⟨hx5, ?_⟩
  have htr := h.2.2 [4, 8, 15, 16, 23] (by simp [hres])
  rw [htr, hx5, hres]
  norm_num [List.range_succ, List.getD]

/-- Claim C7.  Starting a calibration sweep while the module is not idle
returns the whole state unchanged together with an error: the call is
rejected, not queued, and the calibration arrays, sweep progress and
mapping are untouched. -/
theorem start_calibration_single_flight (s : State)
    (h : s.moduleState ≠ ModuleState.idle) :
    startConfigureMeasurement s = (s, some LogicError.alreadyRunning) := by
  rw [startConfigureMeasurement, if_pos h]

/-- Witness for claim C7, on a controller with a sweep in progress. -/
theorem start_calibration_single_flight_witness :
    startConfigureMeasurement runningState
      = (runningState, some LogicError.alreadyRunning) :=
  start_calibration_single_flight runningState (by simp [runningState, baseState])

/-- Claim C8.  When a connected switch reports off, `get_power` returns
exactly `0`, also right after any `set_power` call; in every other case
(switch on, or no switch connected) it returns the power setpoint, which
is the active mapping evaluated at the current control value (the
parametric model when the interpolated mapping is off, the forward
interpolant when it is on and computed). -/
theorem switch_overlay_get_power (s : State) :
    (s.switchState = some false → getPower s = some 0)
    ∧ (s.switchState ≠ some false → getPower s = getPowerSetpoint s)
    ∧ (∀ v : ℝ, s.switchState = some false → getPower (setPower s v).1 = some 0)
    ∧ (s.useInterpolated = false →
        getPowerSetpoint s = some (aom_model s.modelParams s.controlValue))
    ∧ (∀ d, s.useInterpolated = true → s.interpolatedData = some d →
        getPowerSetpoint s = evalForward d.1 d.2 s.controlValue) := by
  refine ⟨?_, ?_, ?_, ?_, ?_⟩
  · intro h
    rw [getPower, if_pos (by simp [getSwitchState, h])]
  · intro h
    rw [getPower, if_neg (by simp [getSwitchState]; exact h)]
  · intro v h
    rw [getPower, if_pos (by simp [getSwitchState, setPower_keeps_switch, h])]
  · intro h
    rw [getPowerSetpoint, if_neg (by simp [h])]
  · intro d h1 h2
    rw [getPowerSetpoint, if_pos (by simp [h1]), h2]

/-- Witness for claim C8: on the calibrated two point controller the off
switch forces `get_power` to `0`, also after `set_power 4`, while the on
switch exposes the mapping value. -/
theorem switch_overlay_get_power_witness :
    getPower offSwitchState = some 0
    ∧ getPower (setPower offSwitchState 4).1 = some 0
    ∧ getPower onSwitchState = getPowerSetpoint onSwitchState :=
  ⟨(switch_overlay_get_power offSwitchState).1 rfl,
   (switch_overlay_get_power offSwitchState).2.2.1 4 rfl,
   (switch_overlay_get_power onSwitchState).2.1 (by simp [onSwitchState])⟩

/-- Claim C9.  With the interpolated mapping active and no inverse
interpolant computed, `set_power` returns before any control value is
computed: the state is unchanged, an uncalibrated error is reported, and
no write reaches the control source. -/
theorem set_power_uncalibrated_rejected (s : State) (v : ℝ)
    (h1 : s.useInterpolated = true) (h2 : s.interpolatedInverseData = none) :
    (setPower s v).1 = s
    ∧ (setPower s v).2.error = some LogicError.uncalibrated
    ∧ (setPower s v).2.write = none := by
  rw [setPower, if_pos ⟨by simp [h1], h2⟩]
  exact ⟨rfl, rfl, rfl⟩

/-- Witness for claim C9, on the fresh uncalibrated controller. -/
theorem set_power_uncalibrated_rejected_witness :
    (setPower baseState 1).1 = baseState
    ∧ (setPower baseState 1).2.error = some LogicError.uncalibrated
    ∧ (setPower baseState 1).2.write = none :=
  set_power_uncalibrated_rejected baseState 1 rfl rfl

/-- Claim C10.  With the interpolated mapping active, the power queries
fall back to `0` instead of failing: `get_power_setpoint` returns `0` when
no interpolant has been computed, and `power_max` and `power_min` both
return `0` when the calibration sample list is empty. -/
theorem uncalibrated_power_queries_zero (s : State)
    (h1 : s.useInterpolated = true) :
    (s.interpolatedData = none → getPowerSetpoint s = some 0)
    ∧ (s.calibrationY = [] → powerMax s = some 0 ∧ powerMin s = some 0) := by
  constructor
  · intro h
    rw [getPowerSetpoint, if_pos (by simp [h1]), h]
  · intro h
    constructor
    · rw [powerMax, if_pos (by simp [h1]), if_pos (by simp [h])]
    · rw [powerMin, if_pos (by simp [h1]), if_pos (by simp [h])]

/-- Witness for claim C10, on the fresh uncalibrated controller. -/
theorem uncalibrated_power_queries_zero_witness :
    getPowerSetpoint baseState = some 0
    ∧ powerMax baseState = some 0
    ∧ powerMin baseState = some 0 :=
  ⟨(uncalibrated_power_queries_zero baseState rfl).1 rfl,
   (uncalibrated_power_queries_zero baseState rfl).2 rfl⟩

end LaserPower
